import Mathlib

/-!
Verification development for the stress-tracker core (src/core of the
repository): feature extraction (features.py), z-score normalization
(utils.py), stress scoring (analysis.py), baseline persistence (utils.py)
and the background key tracker (tracker.py).

Modelling conventions: Python floats are modelled as rationals, moving to
the reals where a square root or the exponential enters; Python dicts with
string keys are modelled as association lists with first-match lookup
(the dicts built by the code never hold duplicate keys, so any lookup
discipline agrees with dict semantics); a Python exception escaping a
function is modelled as an Option-valued result of none.
-/

/-- Lookup in an association list modelling a Python dict access. -/
def fget? {α : Type} : List (String × α) → String → Option α
  | [], _ => none
  | (k, v) :: r, q => if k = q then some v else fget? r q

/-- Dict lookup with default 0, modelling d.get(key, 0) on a float dict. -/
def zget (m : List (String × ℚ)) (k : String) : ℚ :=
  (fget? m k).getD 0

/-- One iteration of the mean/std pairs loop of calculate_z_scores
(utils.py lines 51-60): the z entry for metric is emitted only when
current holds metric and baseline holds both metric and std_metric, and a
nonpositive baseline std yields exactly 0.0 instead of a division. -/
def pairEntry (current baseline : List (String × ℚ)) (metric std_metric : String) :
    List (String × ℚ) :=
  match fget? current metric, fget? baseline metric, fget? baseline std_metric with
  | some val, some mu, some sigma =>
      [("z_" ++ metric, if sigma > 0 then (val - mu) / sigma else 0)]
  | _, _, _ => []

/-- One iteration of the heuristics loop of calculate_z_scores
(utils.py lines 73-79): the spread is approximated as
max(baseline_value * 0.3, 0.001). -/
def heurEntry (current baseline : List (String × ℚ)) (h : String) :
    List (String × ℚ) :=
  match fget? current h, fget? baseline h with
  | some val, some mu => [("z_" ++ h, (val - mu) / max (mu * (3/10)) (1/1000))]
  | _, _ => []

/-- Embedding of calculate_z_scores (utils.py lines 21-81): the three
mean/std pairs followed by the four heuristic features, in the insertion
order of the two dict literals in the source. -/
def calculate_z_scores (current baseline : List (String × ℚ)) : List (String × ℚ) :=
  pairEntry current baseline "mouse_vel_mean" "mouse_vel_std"
    ++ (pairEntry current baseline "key_flight_mean" "key_flight_std"
    ++ (pairEntry current baseline "key_dwell_mean" "key_dwell_std"
    ++ (heurEntry current baseline "mouse_path_efficiency"
    ++ (heurEntry current baseline "key_error_rate"
    ++ (heurEntry current baseline "key_backspace_count"
    ++ heurEntry current baseline "mouse_click_latency")))))

/-- Weighted z-score sum of submit_session_logic (analysis.py lines
105-115): the weights dict is iterated in insertion order, each key looked
up in the z-score dict with default 0. -/
def zSum (z : List (String × ℚ)) : ℚ :=
  zget z "z_mouse_acc_std" * (3/10) + zget z "z_key_flight_std" * (4/10)
    + zget z "z_mouse_path_efficiency" * (3/10)
    + zget z "z_mouse_click_latency" * (2/10)

/-- Logistic map of analysis.py line 119. -/
noncomputable def sigmoid (s : ℝ) : ℝ := 1 / (1 + Real.exp (-s))

/-- Baseline-present scoring path of submit_session_logic (analysis.py
lines 101-119): logistic of the weighted z-score sum. -/
noncomputable def stress_score_with_baseline (current baseline : List (String × ℚ)) : ℝ :=
  sigmoid ((zSum (calculate_z_scores current baseline) : ℚ) : ℝ)

/-- Baseline-absent scoring path of submit_session_logic (analysis.py
lines 121-131): fixed threshold increments on 0.5, then the clamp
min(max(score, 0.0), 1.0). -/
def stress_score_no_baseline (mouse_feats key_feats : List (String × ℚ)) : ℚ :=
  let s := 1/2
    + (if zget mouse_feats "mouse_acc_std" > 1/2 then 2/10 else 0)
    + (if zget mouse_feats "mouse_vel_mean" > 2 then 1/10 else 0)
    + (if zget key_feats "key_flight_std" > 50 then 2/10 else 0)
    + (if zget key_feats "key_error_rate" > 1/20 then 15/100 else 0)
  min (max s 0) 1

/-- Key names that calculate_z_scores can ever emit. -/
def zAllowedKeys : List String :=
  ["z_mouse_vel_mean", "z_key_flight_mean", "z_key_dwell_mean",
   "z_mouse_path_efficiency", "z_key_error_rate", "z_key_backspace_count",
   "z_mouse_click_latency"]

/-- Mean/std feature pairs of the pairs dict in calculate_z_scores. -/
def zPairs : List (String × String) :=
  [("mouse_vel_mean", "mouse_vel_std"),
   ("key_flight_mean", "key_flight_std"),
   ("key_dwell_mean", "key_dwell_std")]

@[simp] lemma fget?_nil {α : Type} (q : String) :
    fget? ([] : List (String × α)) q = none := rfl

@[simp] lemma fget?_cons {α : Type} (k0 : String) (v0 : α) (r : List (String × α))
    (q : String) : fget? ((k0, v0) :: r) q = if k0 = q then some v0 else fget? r q := rfl

lemma fget?_append_of_none {α : Type} {l1 : List (String × α)} (l2 : List (String × α))
    {k : String} (h : fget? l1 k = none) : fget? (l1 ++ l2) k = fget? l2 k := by
  induction l1 with
  | nil => rw [List.nil_append]
  | cons p r ih =>
      obtain ⟨k0, v0⟩ := p
      rw [fget?_cons] at h
      by_cases hk : k0 = k
      · rw [if_pos hk] at h
        exact absurd h (by simp)
      · rw [if_neg hk] at h
        rw [List.cons_append, fget?_cons, if_neg hk]
        exact ih h

lemma fget?_append_of_some {α : Type} {l1 : List (String × α)} (l2 : List (String × α))
    {k : String} {v : α} (h : fget? l1 k = some v) : fget? (l1 ++ l2) k = some v := by
  induction l1 with
  | nil => rw [fget?_nil] at h
           exact absurd h (by simp)
  | cons p r ih =>
      obtain ⟨k0, v0⟩ := p
      rw [fget?_cons] at h
      by_cases hk : k0 = k
      · rw [if_pos hk] at h
        rw [List.cons_append, fget?_cons, if_pos hk]
        exact h
      · rw [if_neg hk] at h
        rw [List.cons_append, fget?_cons, if_neg hk]
        exact ih h

lemma pairEntry_key {c b : List (String × ℚ)} {m s : String} {p : String × ℚ}
    (hp : p ∈ pairEntry c b m s) : p.1 = "z_" ++ m := by
  unfold pairEntry at hp
  split at hp
  · simp only [List.mem_singleton] at hp
    rw [hp]
  · simp at hp

lemma heurEntry_key {c b : List (String × ℚ)} {h : String} {p : String × ℚ}
    (hp : p ∈ heurEntry c b h) : p.1 = "z_" ++ h := by
  unfold heurEntry at hp
  split at hp
  · simp only [List.mem_singleton] at hp
    rw [hp]
  · simp at hp

lemma fget?_pairEntry_ne {c b : List (String × ℚ)} {m s k : String}
    (h : k ≠ "z_" ++ m) : fget? (pairEntry c b m s) k = none := by
  unfold pairEntry
  split
  · rw [fget?_cons, if_neg (Ne.symm h), fget?_nil]
  · rw [fget?_nil]

lemma fget?_heurEntry_ne {c b : List (String × ℚ)} {hn k : String}
    (h : k ≠ "z_" ++ hn) : fget? (heurEntry c b hn) k = none := by
  unfold heurEntry
  split
  · rw [fget?_cons, if_neg (Ne.symm h), fget?_nil]
  · rw [fget?_nil]

lemma sigmoid_nonneg (s : ℝ) : 0 ≤ sigmoid s := by
  have hd : (0:ℝ) < 1 + Real.exp (-s) := by positivity
  exact le_of_lt (div_pos one_pos hd)

lemma sigmoid_le_one (s : ℝ) : sigmoid s ≤ 1 := by
  have hd : (0:ℝ) < 1 + Real.exp (-s) := by positivity
  rw [sigmoid, div_le_one hd]
  have := Real.exp_pos (-s)
  linarith

/-- C1: whichever scoring path submit_session_logic takes — logistic of
the weighted z-score sum when a baseline is present, or 0.5 plus threshold
increments then clamp when it is absent — the resulting stress score lies
in [0.0, 1.0] for arbitrary feature and z-score inputs. -/
theorem stress_score_unit_interval (c b mf kf : List (String × ℚ)) :
    (0 ≤ stress_score_with_baseline c b ∧ stress_score_with_baseline c b ≤ 1)
    ∧ (0 ≤ stress_score_no_baseline mf kf ∧ stress_score_no_baseline mf kf ≤ 1) := by
  refine ⟨⟨sigmoid_nonneg _, sigmoid_le_one _⟩, ?_, ?_⟩
  · exact le_min (le_max_right _ _) zero_le_one
  · exact min_le_right _ _

lemma calculate_z_scores_acc_std_none (c b : List (String × ℚ)) :
    fget? (calculate_z_scores c b) "z_mouse_acc_std" = none := by
  unfold calculate_z_scores
  rw [fget?_append_of_none _ (fget?_pairEntry_ne (by decide)),
    fget?_append_of_none _ (fget?_pairEntry_ne (by decide)),
    fget?_append_of_none _ (fget?_pairEntry_ne (by decide)),
    fget?_append_of_none _ (fget?_heurEntry_ne (by decide)),
    fget?_append_of_none _ (fget?_heurEntry_ne (by decide)),
    fget?_append_of_none _ (fget?_heurEntry_ne (by decide))]
  exact fget?_heurEntry_ne (by decide)

lemma calculate_z_scores_flight_std_none (c b : List (String × ℚ)) :
    fget? (calculate_z_scores c b) "z_key_flight_std" = none := by
  unfold calculate_z_scores
  rw [fget?_append_of_none _ (fget?_pairEntry_ne (by decide)),
    fget?_append_of_none _ (fget?_pairEntry_ne (by decide)),
    fget?_append_of_none _ (fget?_pairEntry_ne (by decide)),
    fget?_append_of_none _ (fget?_heurEntry_ne (by decide)),
    fget?_append_of_none _ (fget?_heurEntry_ne (by decide)),
    fget?_append_of_none _ (fget?_heurEntry_ne (by decide))]
  exact fget?_heurEntry_ne (by decide)

/-- C3: the key set of calculate_z_scores is contained in the seven names
it can emit; in particular z_mouse_acc_std and z_key_flight_std never
occur, so the weighted z-score sum of the baseline-present path loses the
0.3 jitter weight and the 0.4 flight-std weight, and the stress score
reduces to the logistic of 0.3 * z_mouse_path_efficiency
+ 0.2 * z_mouse_click_latency. -/
theorem z_scores_key_set_and_score_reduction (c b : List (String × ℚ)) :
    ((calculate_z_scores c b).all fun p => zAllowedKeys.contains p.1) = true
    ∧ fget? (calculate_z_scores c b) "z_mouse_acc_std" = none
    ∧ fget? (calculate_z_scores c b) "z_key_flight_std" = none
    ∧ zSum (calculate_z_scores c b)
        = zget (calculate_z_scores c b) "z_mouse_path_efficiency" * (3/10)
          + zget (calculate_z_scores c b) "z_mouse_click_latency" * (2/10)
    ∧ stress_score_with_baseline c b
        = sigmoid ((zget (calculate_z_scores c b) "z_mouse_path_efficiency" * (3/10)
            + zget (calculate_z_scores c b) "z_mouse_click_latency" * (2/10) : ℚ) : ℝ) := by
  have hacc := calculate_z_scores_acc_std_none c b
  have hfl := calculate_z_scores_flight_std_none c b
  have hsum : zSum (calculate_z_scores c b)
      = zget (calculate_z_scores c b) "z_mouse_path_efficiency" * (3/10)
        + zget (calculate_z_scores c b) "z_mouse_click_latency" * (2/10) := by
    unfold zSum zget
    rw [hacc, hfl]
    simp
  refine ⟨?_, hacc, hfl, hsum, ?_⟩
  · rw [List.all_eq_true]
    intro p hp
    unfold calculate_z_scores at hp
    simp only [List.mem_append] at hp
    rcases hp with hp | hp | hp | hp | hp | hp | hp
    · rw [List.contains_eq_any_beq]
      have := pairEntry_key hp
      simp [zAllowedKeys, this]
    · rw [List.contains_eq_any_beq]
      have := pairEntry_key hp
      simp [zAllowedKeys, this]
    · rw [List.contains_eq_any_beq]
      have := pairEntry_key hp
      simp [zAllowedKeys, this]
    · rw [List.contains_eq_any_beq]
      have := heurEntry_key hp
      simp [zAllowedKeys, this]
    · rw [List.contains_eq_any_beq]
      have := heurEntry_key hp
      simp [zAllowedKeys, this]
    · rw [List.contains_eq_any_beq]
      have := heurEntry_key hp
      simp [zAllowedKeys, this]
    · rw [List.contains_eq_any_beq]
      have := heurEntry_key hp
      simp [zAllowedKeys, this]
  · unfold stress_score_with_baseline
    rw [hsum]

/-- C8: for each mean/std pair of the pairs dict, when the current map
holds the mean and the baseline holds both the mean and the std, the
emitted z entry is (current - baseline_mean) / baseline_std for a positive
baseline std and exactly 0.0 otherwise — never an undefined division. -/
theorem z_scores_pair_guard (c b : List (String × ℚ)) (m s : String) (v mu sg : ℚ)
    (hp : (m, s) ∈ zPairs) (h1 : fget? c m = some v) (h2 : fget? b m = some mu)
    (h3 : fget? b s = some sg) :
    fget? (calculate_z_scores c b) ("z_" ++ m)
      = some (if sg > 0 then (v - mu) / sg else 0) := by
  have hself : fget? (pairEntry c b m s) ("z_" ++ m)
      = some (if sg > 0 then (v - mu) / sg else 0) := by
    unfold pairEntry
    rw [h1, h2, h3]
    simp
  simp only [zPairs, List.mem_cons, List.not_mem_nil, or_false,
    Prod.mk.injEq] at hp
  obtain ⟨hm, hs⟩ | ⟨hm, hs⟩ | ⟨hm, hs⟩ := hp
  · subst hm
    subst hs
    unfold calculate_z_scores
    exact fget?_append_of_some _ hself
  · subst hm
    subst hs
    unfold calculate_z_scores
    rw [fget?_append_of_none _ (fget?_pairEntry_ne (by decide))]
    exact fget?_append_of_some _ hself
  · subst hm
    subst hs
    unfold calculate_z_scores
    rw [fget?_append_of_none _ (fget?_pairEntry_ne (by decide)),
      fget?_append_of_none _ (fget?_pairEntry_ne (by decide))]
    exact fget?_append_of_some _ hself

/-- Witness for C8 at a concrete input with a zero baseline std: the
emitted z entry is exactly 0. -/
theorem z_scores_pair_guard_witness :
    (("key_dwell_mean", "key_dwell_std") ∈ zPairs)
    ∧ fget? [("key_dwell_mean", (5:ℚ))] "key_dwell_mean" = some 5
    ∧ fget? [("key_dwell_mean", (3:ℚ)), ("key_dwell_std", 0)] "key_dwell_mean" = some 3
    ∧ fget? [("key_dwell_mean", (3:ℚ)), ("key_dwell_std", 0)] "key_dwell_std" = some 0
    ∧ fget? (calculate_z_scores [("key_dwell_mean", (5:ℚ))]
        [("key_dwell_mean", (3:ℚ)), ("key_dwell_std", 0)]) ("z_" ++ "key_dwell_mean")
      = some (if (0:ℚ) > 0 then ((5:ℚ) - 3) / 0 else 0) :=
  ⟨by decide, by decide, by decide, by decide,
    z_scores_pair_guard _ _ "key_dwell_mean" "key_dwell_std" 5 3 0
      (by decide) (by decide) (by decide) (by decide)⟩

/-- Stored content of the baseline file data/baseline.json: either a
record that json.load parses back to the written float dict (json.dump of
a finite name-to-float dict round-trips), or bytes json.load rejects. -/
inductive StoredBaseline
  | record (features : List (String × ℚ))
  | corrupt

/-- State of the baseline store location: none models a missing file
(os.path.exists returns false), some models an existing file. -/
abbrev BaselineStore := Option StoredBaseline

/-- Embedding of save_baseline (utils.py lines 8-10): the prior store
content is overwritten wholesale with a parseable record of the dict. -/
def save_baseline (_store : BaselineStore) (features : List (String × ℚ)) :
    BaselineStore :=
  some (StoredBaseline.record features)

/-- Embedding of load_baseline (utils.py lines 12-19): a missing file
returns None; an unreadable or corrupt record makes json.load raise, the
bare except catches it and returns None; otherwise the parsed dict is
returned. -/
def load_baseline : BaselineStore → Option (List (String × ℚ))
  | none => none
  | some StoredBaseline.corrupt => none
  | some (StoredBaseline.record f) => some f

/-- C9: load_baseline after save_baseline returns the saved FeatureVector
unchanged, and load_baseline on a store where no baseline was ever saved,
or whose stored record is unreadable or corrupt, returns absent (None)
rather than raising. -/
theorem baseline_round_trip (store : BaselineStore) (f : List (String × ℚ)) :
    load_baseline (save_baseline store f) = some f
    ∧ load_baseline none = none
    ∧ load_baseline (some StoredBaseline.corrupt) = none :=
  ⟨rfl, rfl, rfl⟩

/-- Key notification delivered by the host input subsystem to the
background tracker, carrying the wall-clock instant of handling. -/
inductive KeyNotification
  | press (key : String) (t : ℚ)
  | release (key : String) (t : ℚ)

/-- Keystroke record appended by BackgroundTracker.on_release
(tracker.py lines 74-78). -/
structure KeystrokeRec where
  key : String
  hold_time : ℚ
  timestamp : ℚ
  deriving DecidableEq

/-- Key-related mutable state of BackgroundTracker: the active_keys dict
and the keystrokes list. -/
structure TrackerKeyState where
  active_keys : List (String × ℚ)
  keystrokes : List KeystrokeRec
  deriving DecidableEq

/-- Removal of a key binding from an association list, modelling
dict.pop on a dict whose keys are unique. -/
def delKey {α : Type} : List (String × α) → String → List (String × α)
  | [], _ => []
  | (k, v) :: r, q => if k = q then r else (k, v) :: delKey r q

/-- Embedding of BackgroundTracker.on_press (tracker.py lines 62-66) with
the running flag true: a key absent from active_keys is remembered with
the press instant; a duplicate press of a still-unreleased key leaves the
remembered instant unchanged. -/
def on_press (st : TrackerKeyState) (key : String) (t : ℚ) : TrackerKeyState :=
  match fget? st.active_keys key with
  | none => { st with active_keys := st.active_keys ++ [(key, t)] }
  | some _ => st

/-- Embedding of BackgroundTracker.on_release (tracker.py lines 68-78)
with the running flag true. -/
def on_release (st : TrackerKeyState) (key : String) (t : ℚ) : TrackerKeyState :=
  match fget? st.active_keys key with
  | some press_time =>
      { active_keys := delKey st.active_keys key,
        keystrokes := st.keystrokes
          ++ [{ key := key, hold_time := t - press_time, timestamp := press_time }] }
  | none => st

/-- Sequence of key notifications applied to the tracker key state. -/
def runTracker (st : TrackerKeyState) : List KeyNotification → TrackerKeyState
  | [] => st
  | KeyNotification.press k t :: r => runTracker (on_press st k t) r
  | KeyNotification.release k t :: r => runTracker (on_release st k t) r

/-- Tracker key state right after start() (tracker.py lines 80-85). -/
def tracker_start_state : TrackerKeyState :=
  { active_keys := [], keystrokes := [] }

/-- Counterexample to C5: pressing the same key at instants 0 and 10
without a release and releasing at 20 emits holdTime 20 and t 0, taken
from the first press instant; the claim predicts holdTime 10 and t 10
from an overwritten (most recent) instant. -/
theorem tracker_duplicate_press_counterexample :
    (runTracker tracker_start_state
      [KeyNotification.press "a" 0, KeyNotification.press "a" 10,
       KeyNotification.release "a" 20]).keystrokes
      = [{ key := "a", hold_time := 20, timestamp := 0 }]
    ∧ ({ key := "a", hold_time := 20, timestamp := 0 } : KeystrokeRec)
        ≠ { key := "a", hold_time := 20 - 10, timestamp := 10 } := by
  constructor
  · simp [runTracker, on_press, on_release, tracker_start_state]
  · simp only [ne_eq, KeystrokeRec.mk.injEq, not_and]
    intro _ _ h
    norm_num at h

/-- C5 (amended): a duplicate press of a key whose release has not yet
been recorded is ignored — the remembered press instant is kept — so the
KeyEvent emitted on release uses the first press instant:
holdTime = releaseTime - firstPressInstant and t = firstPressInstant. -/
theorem tracker_keeps_first_press (k : String) (t1 t2 t3 : ℚ) :
    (runTracker tracker_start_state
      [KeyNotification.press k t1, KeyNotification.press k t2,
       KeyNotification.release k t3]).keystrokes
      = [{ key := k, hold_time := t3 - t1, timestamp := t1 }] := by
  simp [runTracker, on_press, on_release, tracker_start_state, fget?, delKey]

/-- Raw frontend keystroke event, carrying an action field. -/
structure RawKey where
  key : String
  action : String
  timestamp : ℚ
  deriving DecidableEq

/-- Insert-or-overwrite on an association list, modelling the dict
assignment pending_downs[key] = timestamp in features.py line 141. -/
def setVal {α : Type} : List (String × α) → String → α → List (String × α)
  | [], q, v => [(q, v)]
  | (k, w) :: r, q, v => if k = q then (q, v) :: r else (k, w) :: setVal r q v

/-- Dwell-time pass of extract_keystroke_features for the raw shape
(features.py lines 138-146): a down event overwrites the pending instant
for its key label; an up event with a pending instant for its key appends
the difference and clears the entry; any other up event is ignored. -/
def raw_dwell_times (ks : List RawKey) : List ℚ :=
  (ks.foldl (fun acc k =>
    if k.action = "down" then (setVal acc.1 k.key k.timestamp, acc.2)
    else if k.action = "up" then
      match fget? acc.1 k.key with
      | some start => (delKey acc.1 k.key, acc.2 ++ [k.timestamp - start])
      | none => acc
    else acc) (([] : List (String × ℚ)), ([] : List ℚ))).2

/-- Counterexample to C4: two down events for one key followed by one up
event yield the dwell time 20 - 10 measured from the SECOND down; the
claimed first-in/first-matched pairing predicts 20 - 0. -/
theorem raw_dwell_counterexample :
    raw_dwell_times
      [{ key := "a", action := "down", timestamp := 0 },
       { key := "a", action := "down", timestamp := 10 },
       { key := "a", action := "up", timestamp := 20 }]
      = [10]
    ∧ ([10] : List ℚ) ≠ [20 - 0] := by
  constructor
  · simp [raw_dwell_times, setVal, delKey]
    norm_num
  · simp only [ne_eq, List.cons.injEq, and_true, not_and]
    intro h
    norm_num at h

/-- C4 (amended): each up event is paired with the MOST RECENT down event
for the same key label — a later down overwrites the pending instant — so
when two downs for one key precede an up, the dwell time is measured from
the second down; a down with no following up contributes nothing. -/
theorem raw_dwell_last_matched (k : String) (t1 t2 t3 : ℚ) :
    raw_dwell_times
      [{ key := k, action := "down", timestamp := t1 },
       { key := k, action := "down", timestamp := t2 },
       { key := k, action := "up", timestamp := t3 }]
      = [t3 - t2]
    ∧ raw_dwell_times [{ key := k, action := "down", timestamp := t1 }] = [] := by
  constructor
  · simp [raw_dwell_times, setVal, fget?, delKey]
  · simp [raw_dwell_times]

/-- Paired-shape keystroke record of the background tracker; the
hold_time field is probed by membership, so it is optional. -/
structure PairedKey where
  key : String
  hold_time : Option ℚ
  timestamp : ℚ
  deriving DecidableEq

/-- Consecutive differences, modelling np.diff. -/
def npDiff (l : List ℚ) : List ℚ :=
  match l with
  | [] => []
  | _ :: t => t.zipWith (fun x y => x - y) l

/-- Arithmetic mean with the empty case collapsed to 0, modelling the
emptiness guards and NaN replacement around np.mean / pandas mean. -/
noncomputable def npMean (l : List ℝ) : ℝ :=
  if l.length = 0 then 0 else l.sum / l.length

/-- Population standard deviation (np.std, ddof = 0), empty case 0. -/
noncomputable def npStd (l : List ℝ) : ℝ :=
  if l.length = 0 then 0
  else Real.sqrt ((l.map (fun x => (x - npMean l) ^ 2)).sum / l.length)

/-- Sorted timestamp list of the paired branch (features.py line 150). -/
def pairedTimestamps (ks : List PairedKey) : List ℚ :=
  List.insertionSort (fun a b => a ≤ b) (ks.map fun k => k.timestamp)

/-- Characters-per-minute entry of extract_keystroke_features
(features.py line 167): with fewer than two timestamps the value is 0.0;
otherwise the code divides by the timestamp span with no further guard,
so a zero span raises ZeroDivisionError, modelled as none. -/
def key_cpm (ts : List ℚ) : Option ℚ :=
  if ts.length > 1 then
    if ts.getLastD 0 - ts.headD 0 = 0 then none
    else some ((ts.length : ℚ) / (ts.getLastD 0 - ts.headD 0) * 60000)
  else some 0

/-- Paired-shape branch of extract_keystroke_features (features.py lines
122-172): flight times are consecutive differences of the sorted
timestamps, dwell times are the hold_time fields, the error rate counts
Backspace and Delete keys, and the whole call is none when the key_cpm
entry raises. -/
noncomputable def extract_keystroke_features_paired (ks : List PairedKey) :
    Option (List (String × ℝ)) :=
  if ks.length = 0 then some [] else
  let timestamps := pairedTimestamps ks
  let flight_times : List ℚ := if timestamps.length > 1 then npDiff timestamps else []
  let dwell_times : List ℚ := ks.filterMap fun k => k.hold_time
  let backspace_count : ℕ :=
    (ks.filter fun k => k.key == "Backspace" || k.key == "Delete").length
  let error_rate : ℚ := if ks.length > 0 then (backspace_count : ℚ) / ks.length else 0
  (key_cpm timestamps).map fun cpm =>
    [("key_dwell_mean",
        if dwell_times.length ≠ 0 then npMean (dwell_times.map fun q => (q : ℝ)) else 0),
     ("key_dwell_std",
        if dwell_times.length ≠ 0 then npStd (dwell_times.map fun q => (q : ℝ)) else 0),
     ("key_flight_mean",
        if flight_times.length > 0 then npMean (flight_times.map fun q => (q : ℝ)) else 0),
     ("key_flight_std",
        if flight_times.length > 0 then npStd (flight_times.map fun q => (q : ℝ)) else 0),
     ("key_cpm", (cpm : ℝ)),
     ("key_error_rate", (error_rate : ℝ)),
     ("key_backspace_count", (backspace_count : ℝ))]

/-- C2 (code evaluated at the failing input): two records sharing one
timestamp pass the fewer-than-two guard, the span is zero, and the
division in key_cpm faults (none) instead of yielding 0.0; with fewer
than two timestamps the value is 0.0, and with a nonzero span the value
is timestampCount / span * 60000. -/
theorem key_cpm_zero_span_fault :
    key_cpm (pairedTimestamps
      [{ key := "a", hold_time := some (1/10), timestamp := 1000 },
       { key := "b", hold_time := some (1/10), timestamp := 1000 }]) = none
    ∧ extract_keystroke_features_paired
      [{ key := "a", hold_time := some (1/10), timestamp := 1000 },
       { key := "b", hold_time := some (1/10), timestamp := 1000 }] = none
    ∧ key_cpm [1000] = some 0
    ∧ key_cpm [] = some 0
    ∧ key_cpm [1000, 1030] = some (2 / 30 * 60000) := by
  have h1 : pairedTimestamps
      [{ key := "a", hold_time := some (1/10), timestamp := 1000 },
       { key := "b", hold_time := some (1/10), timestamp := 1000 }] = [1000, 1000] := by
    simp [pairedTimestamps, List.insertionSort, List.orderedInsert]
  have h2 : key_cpm [(1000 : ℚ), 1000] = none := by
    norm_num [key_cpm]
  refine ⟨h1 ▸ h2, ?_, by norm_num [key_cpm], by norm_num [key_cpm], ?_⟩
  · rw [extract_keystroke_features_paired]
    norm_num [h1, h2]
  · norm_num [key_cpm]

/-- Movement record of the session payload (x, y, timestamp). -/
structure Movement where
  x : ℚ
  y : ℚ
  timestamp : ℚ
  deriving DecidableEq

/-- Stable sort by timestamp, modelling df.sort_values('timestamp')
(features.py line 12). -/
def sortMovements (ms : List Movement) : List Movement :=
  List.insertionSort (fun a b => a.timestamp ≤ b.timestamp) ms

/-- Column difference with the leading entry filled with 0, modelling
Series.diff().fillna(0). -/
def diffFill0 {α : Type} [Zero α] [Sub α] : List α → List α
  | [] => []
  | a :: t => 0 :: t.zipWith (fun u v => u - v) (a :: t)

/-- Per-row step distance sqrt(dx^2 + dy^2) (features.py line 18), over
the rows in the given order. -/
noncomputable def rowDists (ms : List Movement) : List ℝ :=
  List.zipWith (fun dx dy => Real.sqrt ((dx : ℝ) ^ 2 + (dy : ℝ) ^ 2))
    (diffFill0 (ms.map fun m => m.x)) (diffFill0 (ms.map fun m => m.y))

/-- Valid rows of extract_mouse_features: the (dt, dist) pairs of the
sorted frame whose dt is positive (features.py line 21). -/
noncomputable def validRows (ms : List Movement) : List (ℚ × ℝ) :=
  ((diffFill0 ((sortMovements ms).map fun m => m.timestamp)).zip
    (rowDists (sortMovements ms))).filter fun p => decide (0 < p.1)

/-- Velocity column dist / dt over the valid rows (features.py line 23). -/
noncomputable def mouseVelocities (ms : List Movement) : List ℝ :=
  (validRows ms).map fun p => p.2 / (p.1 : ℝ)

/-- Acceleration column of features.py line 26: the velocity column is
diffed, the leading NaN filled with 0, and divided elementwise by the
valid dt column — one acceleration per valid velocity, the first one 0. -/
noncomputable def mouseAccels (ms : List Movement) : List ℝ :=
  List.zipWith (fun dv d => dv / (d : ℝ))
    (diffFill0 (mouseVelocities ms)) ((validRows ms).map fun p => p.1)

/-- Maximum of a float series, the empty case (NaN) collapsed to 0. -/
noncomputable def seriesMax : List ℝ → ℝ
  | [] => 0
  | a :: t => t.foldl max a

/-- Sample standard deviation (pandas Series.std, ddof = 1); fewer than
two values yield NaN in pandas, replaced by 0.0 downstream. -/
noncomputable def sampleStd (l : List ℝ) : ℝ :=
  if l.length < 2 then 0
  else Real.sqrt ((l.map fun x => (x - npMean l) ^ 2).sum / ((l.length : ℝ) - 1))

/-- Embedding of extract_mouse_features (features.py lines 7-43): empty
map for fewer than two movements, else the seven features in dict order,
with every NaN-producing degenerate series collapsed to 0.0 as the final
comprehension does. -/
noncomputable def extract_mouse_features (ms : List Movement) : List (String × ℝ) :=
  if ms.length < 2 then [] else
  [("mouse_vel_mean", npMean (mouseVelocities ms)),
   ("mouse_vel_std", sampleStd (mouseVelocities ms)),
   ("mouse_vel_max", seriesMax (mouseVelocities ms)),
   ("mouse_acc_mean", npMean ((mouseAccels ms).map fun a => |a|)),
   ("mouse_acc_std", sampleStd (mouseAccels ms)),
   ("mouse_total_dist", (rowDists (sortMovements ms)).sum),
   ("mouse_points", (ms.length : ℝ))]

lemma diffFill0_length {α : Type} [Zero α] [Sub α] (l : List α) :
    (diffFill0 l).length = l.length := by
  cases l with
  | nil => rfl
  | cons a t => simp [diffFill0]

lemma mouseAccels_length (ms : List Movement) :
    (mouseAccels ms).length = (mouseVelocities ms).length := by
  simp [mouseAccels, mouseVelocities, diffFill0_length]

lemma mouseAccels_head? (ms : List Movement) :
    (mouseAccels ms).head? = (mouseVelocities ms).head?.map (fun _ => 0) := by
  unfold mouseAccels mouseVelocities
  cases validRows ms with
  | nil => simp [diffFill0]
  | cons p ps => simp [diffFill0]

/-- Concrete four-point horizontal session: unit time steps, step
distances 1, 2 and 3, so three valid velocities arise. -/
def mouseEx : List Movement :=
  [{ x := 0, y := 0, timestamp := 0 },
   { x := 1, y := 0, timestamp := 1 },
   { x := 3, y := 0, timestamp := 2 },
   { x := 6, y := 0, timestamp := 3 }]

/-- Counterexample to C6: the session mouseEx has 3 valid velocities but
the acceleration column also has 3 entries — not 3 - 1 = 2 — and its
first entry is the extra zero acceleration produced by fillna(0). -/
theorem mouse_accel_count_counterexample :
    (mouseVelocities mouseEx).length = 3
    ∧ (mouseAccels mouseEx).length = 3
    ∧ (3 : ℕ) ≠ 3 - 1
    ∧ (mouseAccels mouseEx).head? = some 0 := by
  have hsort : sortMovements mouseEx = mouseEx := by
    norm_num [sortMovements, mouseEx, List.insertionSort, List.orderedInsert]
  have hvalid : validRows mouseEx
      = [((1 : ℚ), Real.sqrt ((1 : ℝ) ^ 2 + 0 ^ 2)),
         ((1 : ℚ), Real.sqrt ((2 : ℝ) ^ 2 + 0 ^ 2)),
         ((1 : ℚ), Real.sqrt ((3 : ℝ) ^ 2 + 0 ^ 2))] := by
    rw [validRows, hsort]
    norm_num [mouseEx, rowDists, diffFill0]
  refine ⟨?_, ?_, by norm_num, ?_⟩
  · rw [mouseVelocities, hvalid]
    rfl
  · rw [mouseAccels_length, mouseVelocities, hvalid]
    rfl
  · rw [mouseAccels_head?, mouseVelocities, hvalid]
    simp

/-- C6 (amended): the acceleration series entering mouse_acc_mean and
mouse_acc_std has exactly one entry per valid velocity — n entries for n
velocities, not n - 1 — whose first entry is the zero produced by
fillna(0) on the velocity diff; mouse_acc_mean is the mean of the
absolute values of that series (0.0 when it is empty, replacing NaN). -/
theorem mouse_accel_per_velocity (ms : List Movement) :
    (mouseAccels ms).length = (mouseVelocities ms).length
    ∧ (mouseAccels ms).head? = (mouseVelocities ms).head?.map (fun _ => 0)
    ∧ fget? (extract_mouse_features ms) "mouse_acc_mean"
        = (if ms.length < 2 then none
           else some (npMean ((mouseAccels ms).map fun a => |a|))) := by
  refine ⟨mouseAccels_length ms, mouseAccels_head? ms, ?_⟩
  unfold extract_mouse_features
  by_cases h : ms.length < 2
  · rw [if_pos h, if_pos h, fget?_nil]
  · rw [if_neg h, if_neg h]
    simp

/-- Click record appended by BackgroundTracker.on_click; only the
timestamp is read by extract_click_latency. -/
structure Click where
  x : ℚ
  y : ℚ
  timestamp : ℚ
  button : String
  deriving DecidableEq

/-- Sorted movement timestamps (features.py line 102). -/
def move_times (movements : List Movement) : List ℚ :=
  List.insertionSort (fun a b => a ≤ b) (movements.map fun m => m.timestamp)

/-- Latest element of the sorted timestamp list not exceeding ct,
modelling bisect.bisect_right followed by the idx > 0 check and the
move_times[idx - 1] access (features.py lines 108-111); on a sorted list
the prefix of elements at most ct is exactly what bisect delimits. -/
def lastMoveBefore (mts : List ℚ) (ct : ℚ) : Option ℚ :=
  (mts.takeWhile fun u => decide (u ≤ ct)).getLast?

/-- Latency list before the outlier filter: (click_t - move_t) * 1000
milliseconds for each click with a preceding movement (features.py lines
104-112); clicks with no preceding movement are skipped. -/
def rawLatencies (movements : List Movement) (clicks : List Click) : List ℚ :=
  clicks.filterMap fun c =>
    (lastMoveBefore (move_times movements) c.timestamp).map
      fun mt => (c.timestamp - mt) * 1000

/-- Mean of a rational list, 0 for the empty list. -/
def listMeanQ (l : List ℚ) : ℚ :=
  if l.length = 0 then 0 else l.sum / l.length

/-- Embedding of extract_click_latency (features.py lines 93-119): 0.0
for empty clicks or movements, latencies of at least 2000 ms discarded,
mean of the kept latencies, 0.0 when none remain. -/
def extract_click_latency (movements : List Movement) (clicks : List Click) : ℚ :=
  if clicks = [] ∨ movements = [] then 0
  else if ((rawLatencies movements clicks).filter fun l => decide (l < 2000)) = [] then 0
  else listMeanQ ((rawLatencies movements clicks).filter fun l => decide (l < 2000))

lemma getLast?_takeWhile_sorted {s : List ℚ} {ct m : ℚ}
    (hs : List.Sorted (fun a b : ℚ => a ≤ b) s)
    (h : (s.takeWhile fun u => decide (u ≤ ct)).getLast? = some m) :
    m ∈ s ∧ m ≤ ct ∧ ∀ u ∈ s, u ≤ ct → u ≤ m := by
  induction s with
  | nil => simp [List.takeWhile] at h
  | cons a t ih =>
      rw [List.sorted_cons] at hs
      obtain ⟨ha, ht⟩ := hs
      by_cases hact : a ≤ ct
      · rw [List.takeWhile_cons_of_pos (by simpa using hact)] at h
        cases htw : t.takeWhile (fun u => decide (u ≤ ct)) with
        | nil =>
            rw [htw] at h
            simp only [List.getLast?_singleton, Option.some.injEq] at h
            subst h
            refine ⟨List.mem_cons_self _ _, hact, ?_⟩
            intro u hu huct
            rcases List.mem_cons.mp hu with rfl | hu2
            · exact le_refl u
            · exfalso
              cases t with
              | nil => simp at hu2
              | cons b r =>
                  by_cases hbct : b ≤ ct
                  · rw [List.takeWhile_cons_of_pos (by simpa using hbct)] at htw
                    exact List.cons_ne_nil _ _ htw
                  · rw [List.sorted_cons] at ht
                    obtain ⟨hb, _⟩ := ht
                    rcases List.mem_cons.mp hu2 with rfl | hu3
                    · exact hbct huct
                    · exact hbct (le_trans (hb u hu3) huct)
        | cons c r =>
            rw [htw, List.getLast?_cons_cons] at h
            have ih2 := ih ht (by rw [htw]; exact h)
            refine ⟨List.mem_cons_of_mem _ ih2.1, ih2.2.1, ?_⟩
            intro u hu huct
            rcases List.mem_cons.mp hu with rfl | hu2
            · exact ha m ih2.1
            · exact ih2.2.2 u hu2 huct
      · rw [List.takeWhile_cons_of_neg (by simpa using hact)] at h
        simp at h

/-- C10: the movement timestamp selected for a click instant is the
latest one not after it (maximum among timestamps at most the click
time); a session in which every raw latency is at least 2000 ms yields
exactly 0.0, as do empty clicks or empty movements. -/
theorem click_latency_properties (movements : List Movement) (clicks : List Click)
    (ct m : ℚ)
    (hlast : lastMoveBefore (move_times movements) ct = some m)
    (hall : ∀ l ∈ rawLatencies movements clicks, 2000 ≤ l) :
    (m ∈ movements.map (fun mv => mv.timestamp) ∧ m ≤ ct
      ∧ ∀ u ∈ movements.map (fun mv => mv.timestamp), u ≤ ct → u ≤ m)
    ∧ extract_click_latency movements clicks = 0
    ∧ extract_click_latency movements [] = 0
    ∧ extract_click_latency [] clicks = 0 := by
  have hs : List.Sorted (fun a b : ℚ => a ≤ b) (move_times movements) :=
    List.sorted_insertionSort _ _
  rw [lastMoveBefore] at hlast
  have hchar := getLast?_takeWhile_sorted hs hlast
  refine ⟨⟨?_, hchar.2.1, ?_⟩, ?_, ?_, ?_⟩
  · have := hchar.1
    rwa [move_times, List.mem_insertionSort] at this
  · intro u hu huct
    refine hchar.2.2 u ?_ huct
    rw [move_times, List.mem_insertionSort]
    exact hu
  · unfold extract_click_latency
    by_cases he : clicks = [] ∨ movements = []
    · rw [if_pos he]
    · rw [if_neg he]
      have hfil : ((rawLatencies movements clicks).filter
          fun l => decide (l < 2000)) = [] := by
        rw [List.filter_eq_nil_iff]
        intro a ha
        simp only [decide_eq_true_eq, not_lt]
        exact hall a ha
      rw [if_pos hfil]
  · unfold extract_click_latency
    rw [if_pos (Or.inl rfl)]
  · unfold extract_click_latency
    rw [if_pos (Or.inr rfl)]

/-- Witness for C10 at a concrete session: one movement at t = 5, one
click at t = 2 (its latency list is empty, so the outlier hypothesis
holds), and the timestamp selected for the instant 7 is 5. -/
theorem click_latency_properties_witness :
    (lastMoveBefore (move_times [{ x := 0, y := 0, timestamp := 5 }]) 7 = some 5)
    ∧ (∀ l ∈ rawLatencies [{ x := 0, y := 0, timestamp := 5 }]
        [{ x := 0, y := 0, timestamp := 2, button := "Button.left" }], 2000 ≤ l)
    ∧ (((5:ℚ) ∈ [({ x := 0, y := 0, timestamp := 5 } : Movement)].map
          (fun mv => mv.timestamp)
        ∧ (5:ℚ) ≤ 7
        ∧ ∀ u ∈ [({ x := 0, y := 0, timestamp := 5 } : Movement)].map
            (fun mv => mv.timestamp), u ≤ 7 → u ≤ 5)
      ∧ extract_click_latency [{ x := 0, y := 0, timestamp := 5 }]
          [{ x := 0, y := 0, timestamp := 2, button := "Button.left" }] = 0
      ∧ extract_click_latency [{ x := 0, y := 0, timestamp := 5 }] [] = 0
      ∧ extract_click_latency []
          [{ x := 0, y := 0, timestamp := 2, button := "Button.left" }] = 0) :=
  ⟨by decide, by decide,
    click_latency_properties [{ x := 0, y := 0, timestamp := 5 }]
      [{ x := 0, y := 0, timestamp := 2, button := "Button.left" }] 7 5
      (by decide) (by decide)⟩

/-- Truncation toward zero of a rational, modelling the astype(int)
conversion that forms the bucket key time_sec (features.py line 72). -/
def truncQ (q : ℚ) : ℤ := if 0 ≤ q then ⌊q⌋ else ⌈q⌉

/-- Distinct bucket keys in first-appearance order, modelling
Series.unique (features.py line 75). -/
def uniqueFA (l : List ℤ) : List ℤ :=
  l.foldl (fun acc t => if t ∈ acc then acc else acc ++ [t]) []

/-- Rows of the efficiency frame in ARRIVAL order — extract_mouse_efficiency
does not sort its frame (features.py lines 55-58) — each movement paired
with its step distance. -/
noncomputable def effRows (ms : List Movement) : List (Movement × ℝ) :=
  ms.zip (rowDists ms)

/-- Ratio list contributed by bucket t (features.py lines 76-85): buckets
with fewer than two rows are skipped, actual is the sum of the step
distances of the bucket's rows, straight is the Euclidean distance from
the bucket's first to its last row, and the ratio is kept only when
straight exceeds 5 distance units. -/
noncomputable def segRatio (rows : List (Movement × ℝ)) (t : ℤ) : List ℝ :=
  let seg := rows.filter fun r => decide (truncQ r.1.timestamp = t)
  if seg.length < 2 then []
  else
    let actual := (seg.map fun r => r.2).sum
    let f := (seg.headD ({ x := 0, y := 0, timestamp := 0 }, 0)).1
    let lst := (seg.getLastD ({ x := 0, y := 0, timestamp := 0 }, 0)).1
    let euclid := Real.sqrt (((lst.x - f.x : ℚ) : ℝ) ^ 2 + ((lst.y - f.y : ℚ) : ℝ) ^ 2)
    if 5 < euclid then [actual / euclid] else []

/-- Kept ratio list of extract_mouse_efficiency, buckets visited in
first-appearance order of their keys. -/
noncomputable def effList (ms : List Movement) : List ℝ :=
  ((uniqueFA (ms.map fun m => truncQ m.timestamp)).map (segRatio (effRows ms))).flatten

/-- Embedding of extract_mouse_efficiency (features.py lines 46-90): 1.0
for fewer than four movements, else the mean of the kept bucket ratios,
1.0 when no bucket qualifies; the frame is processed in arrival order. -/
noncomputable def extract_mouse_efficiency (ms : List Movement) : ℝ :=
  if ms.length < 4 then 1
  else if (effList ms).length = 0 then 1
  else npMean (effList ms)

/-- C7 (amended): extract_mouse_efficiency processes the movements in
arrival order without sorting, so the claimed sort-before-differencing
behaviour holds exactly when the arrival order already is the timestamp
order: for a timestamp-sorted input the result coincides with the result
on the timestamp-sorted list. -/
theorem efficiency_sorted_input (ms : List Movement)
    (h : List.Sorted (fun a b : Movement => a.timestamp ≤ b.timestamp) ms) :
    extract_mouse_efficiency ms = extract_mouse_efficiency (sortMovements ms) := by
  rw [sortMovements, List.Sorted.insertionSort_eq h]

/-- Witness for C7 at a concrete timestamp-sorted four-point session. -/
theorem efficiency_sorted_input_witness :
    List.Sorted (fun a b : Movement => a.timestamp ≤ b.timestamp)
      [{ x := 0, y := 0, timestamp := 0 }, { x := 1, y := 0, timestamp := 1 },
       { x := 3, y := 0, timestamp := 2 }, { x := 6, y := 0, timestamp := 3 }]
    ∧ extract_mouse_efficiency
        [{ x := 0, y := 0, timestamp := 0 }, { x := 1, y := 0, timestamp := 1 },
         { x := 3, y := 0, timestamp := 2 }, { x := 6, y := 0, timestamp := 3 }]
      = extract_mouse_efficiency (sortMovements
        [{ x := 0, y := 0, timestamp := 0 }, { x := 1, y := 0, timestamp := 1 },
         { x := 3, y := 0, timestamp := 2 }, { x := 6, y := 0, timestamp := 3 }]) :=
  ⟨by decide, efficiency_sorted_input _ (by decide)⟩

lemma truncQ_eq_zero {q : ℚ} (h0 : 0 ≤ q) (h1 : q < 1) : truncQ q = 0 := by
  rw [truncQ, if_pos h0]
  exact Int.floor_eq_zero_iff.mpr ⟨h0, h1⟩

lemma real_sqrt_100 : Real.sqrt 100 = 10 := by
  rw [show (100 : ℝ) = 10 ^ 2 by norm_num]
  exact Real.sqrt_sq (by norm_num)

/-- Four points inside one 1-second bucket, arrival order NOT sorted by
timestamp: the two middle points are swapped. -/
def effExPerm : List Movement :=
  [{ x := 0, y := 0, timestamp := 0 },
   { x := 0, y := 0, timestamp := 1/2 },
   { x := 10, y := 0, timestamp := 1/4 },
   { x := 10, y := 0, timestamp := 3/4 }]

/-- The same four points in timestamp order. -/
def effExSorted : List Movement :=
  [{ x := 0, y := 0, timestamp := 0 },
   { x := 10, y := 0, timestamp := 1/4 },
   { x := 0, y := 0, timestamp := 1/2 },
   { x := 10, y := 0, timestamp := 3/4 }]

/-- Counterexample to C7: extract_mouse_efficiency differences the
movements in arrival order, so the permuted session effExPerm yields 1
while its timestamp-sorted version yields 3 — applying the function to a
permutation of the input does not agree with applying it to the sorted
list. -/
theorem efficiency_permutation_counterexample :
    sortMovements effExPerm = effExSorted
    ∧ extract_mouse_efficiency effExPerm = 1
    ∧ extract_mouse_efficiency effExSorted = 3
    ∧ extract_mouse_efficiency effExPerm
        ≠ extract_mouse_efficiency (sortMovements effExPerm) := by
  have hsort : sortMovements effExPerm = effExSorted := by
    norm_num [sortMovements, effExPerm, effExSorted, List.insertionSort,
      List.orderedInsert]
  have htrunc1 : effExPerm.map (fun m => truncQ m.timestamp) = [0, 0, 0, 0] := by
    simp only [effExPerm, List.map_cons, List.map_nil]
    rw [truncQ_eq_zero (by norm_num) (by norm_num),
      truncQ_eq_zero (by norm_num) (by norm_num),
      truncQ_eq_zero (by norm_num) (by norm_num),
      truncQ_eq_zero (by norm_num) (by norm_num)]
  have htrunc2 : effExSorted.map (fun m => truncQ m.timestamp) = [0, 0, 0, 0] := by
    simp only [effExSorted, List.map_cons, List.map_nil]
    rw [truncQ_eq_zero (by norm_num) (by norm_num),
      truncQ_eq_zero (by norm_num) (by norm_num),
      truncQ_eq_zero (by norm_num) (by norm_num),
      truncQ_eq_zero (by norm_num) (by norm_num)]
  have huniq : uniqueFA [0, 0, 0, 0] = [0] := by decide
  have hd1 : rowDists effExPerm = [0, 0, 10, 0] := by
    simp only [rowDists, effExPerm, List.map_cons, List.map_nil, diffFill0,
      List.zipWith]
    norm_num [real_sqrt_100]
  have hd2 : rowDists effExSorted = [0, 10, 10, 10] := by
    simp only [rowDists, effExSorted, List.map_cons, List.map_nil, diffFill0,
      List.zipWith]
    norm_num [real_sqrt_100]
  have hr1 : effRows effExPerm
      = [({ x := 0, y := 0, timestamp := 0 }, 0),
         ({ x := 0, y := 0, timestamp := 1/2 }, 0),
         ({ x := 10, y := 0, timestamp := 1/4 }, 10),
         ({ x := 10, y := 0, timestamp := 3/4 }, 0)] := by
    rw [effRows, hd1]
    simp [effExPerm]
  have hr2 : effRows effExSorted
      = [({ x := 0, y := 0, timestamp := 0 }, 0),
         ({ x := 10, y := 0, timestamp := 1/4 }, 10),
         ({ x := 0, y := 0, timestamp := 1/2 }, 10),
         ({ x := 10, y := 0, timestamp := 3/4 }, 10)] := by
    rw [effRows, hd2]
    simp [effExSorted]
  have hseg1 : segRatio (effRows effExPerm) 0 = [1] := by
    rw [hr1, segRatio]
    simp only [List.filter, truncQ_eq_zero (show (0:ℚ) ≤ 0 by norm_num) (by norm_num),
      truncQ_eq_zero (show (0:ℚ) ≤ 1/2 by norm_num) (by norm_num),
      truncQ_eq_zero (show (0:ℚ) ≤ 1/4 by norm_num) (by norm_num),
      truncQ_eq_zero (show (0:ℚ) ≤ 3/4 by norm_num) (by norm_num),
      decide_eq_true_eq]
    norm_num [real_sqrt_100]
  have hseg2 : segRatio (effRows effExSorted) 0 = [3] := by
    rw [hr2, segRatio]
    simp only [List.filter, truncQ_eq_zero (show (0:ℚ) ≤ 0 by norm_num) (by norm_num),
      truncQ_eq_zero (show (0:ℚ) ≤ 1/2 by norm_num) (by norm_num),
      truncQ_eq_zero (show (0:ℚ) ≤ 1/4 by norm_num) (by norm_num),
      truncQ_eq_zero (show (0:ℚ) ≤ 3/4 by norm_num) (by norm_num),
      decide_eq_true_eq]
    norm_num [real_sqrt_100]
  have he1 : extract_mouse_efficiency effExPerm = 1 := by
    rw [extract_mouse_efficiency, if_neg (by norm_num [effExPerm])]
    rw [effList, htrunc1, huniq]
    simp only [List.map_cons, List.map_nil, hseg1, List.flatten]
    norm_num [npMean]
  have he2 : extract_mouse_efficiency effExSorted = 3 := by
    rw [extract_mouse_efficiency, if_neg (by norm_num [effExSorted])]
    rw [effList, htrunc2, huniq]
    simp only [List.map_cons, List.map_nil, hseg2, List.flatten]
    norm_num [npMean]
  refine ⟨hsort, he1, he2, ?_⟩
  rw [hsort, he1, he2]
  norm_num
